import Mathlib

/-!
Verification of the `LoyaltyTokenExchange` Soroban contract
(`src/contracts/hello-world/src/lib.rs`).

The contract keeps three key spaces in one instance store:
`BrandBook::Brand(u64) -> Brand`, the counter `B_COUNT -> u64`, and
`UserBalance::Balance(Address, u64) -> i64`.  We embed the store as a
structure with one field per key space; user addresses are modelled as
`Nat`, brand ids as `Nat`, token amounts as `Int` (the source leaves
integer-overflow behaviour unspecified, so balances are modelled as
mathematical integers).  Every `panic!` in the source occurs before any
storage write, so a failing operation is modelled as returning the error
kind together with the store as it stood at the panic point.
-/

namespace Loyalty

/-- `Brand` record, as stored under `BrandBook::Brand(brand_id)`. -/
structure Brand where
  brand_id : Nat
  brand_name : String
  is_active : Bool
deriving DecidableEq, Repr

/-- Error taxonomy: the panic messages of the contract, one kind per
`panic!` site (spec §7). -/
inductive Err where
  | InactiveBrand
  | InvalidAmount
  | SameBrandExchange
  | InsufficientBalance
deriving DecidableEq, Repr

/-- The contract's instance storage: the brand counter (`B_COUNT`, absent
at first), the brand book, and the per-(user, brand) balances.  Absent
keys are `none`. -/
structure Store where
  brandCount : Option Nat
  brands : Nat → Option Brand
  balances : Nat → Nat → Option Int

/-- The store before any operation has run: every key is absent. -/
def emptyStore : Store :=
  { brandCount := none, brands := fun _ => none, balances := fun _ _ => none }

/-- Write `v` under `UserBalance::Balance(user, brand)`, leaving every
other key alone (`env.storage().instance().set(&balance_key, ...)`). -/
def setBalance (s : Store) (user brand : Nat) (v : Int) : Store :=
  { s with balances := fun u b => if u = user ∧ b = brand then some v else s.balances u b }

/-- `view_brand`: lookup of `BrandBook::Brand(brand_id)`, defaulting to
the sentinel `Brand { brand_id: 0, brand_name: "Not_Found", is_active: false }`. -/
def view_brand (s : Store) (brand_id : Nat) : Brand :=
  (s.brands brand_id).getD { brand_id := 0, brand_name := "Not_Found", is_active := false }

/-- `view_user_balance`: lookup of `UserBalance::Balance(user, brand_id)`,
defaulting to 0. -/
def view_user_balance (s : Store) (user : Nat) (brand_id : Nat) : Int :=
  (s.balances user brand_id).getD 0

/-- `get_brand_count`: the stored counter, defaulting to 0. -/
def get_brand_count (s : Store) : Nat :=
  s.brandCount.getD 0

/-- `register_brand`: increment the counter, store a new active `Brand`
under the new id, store the counter, return the new id. -/
def register_brand (s : Store) (brand_name : String) : Nat × Store :=
  let brand_count := s.brandCount.getD 0 + 1
  let new_brand : Brand := { brand_id := brand_count, brand_name := brand_name, is_active := true }
  (brand_count,
    { s with
      brands := fun k => if k = brand_count then some new_brand else s.brands k,
      brandCount := some brand_count })

/-- `issue_tokens`: check the brand is active (the sentinel for unknown
brands is inactive), then check `amount > 0`, then add `amount` to the
`(user, brand_id)` balance.  On a panic the store is returned as it stood
at the panic site (no write precedes any panic in the source). -/
def issue_tokens (s : Store) (user : Nat) (brand_id : Nat) (amount : Int) :
    Option Err × Store :=
  let brand := view_brand s brand_id
  if brand.is_active = false then (some Err.InactiveBrand, s)
  else if amount ≤ 0 then (some Err.InvalidAmount, s)
  else
    let current_balance := view_user_balance s user brand_id
    (none, setBalance s user brand_id (current_balance + amount))

/-- `exchange_tokens`: check `amount > 0`, the brands differ, both brands
are active, and the source balance suffices; then write
`from_balance - amount` to the source key and `to_balance + amount` to
the destination key (the destination balance is read after the source
write, as in the source). -/
def exchange_tokens (s : Store) (user : Nat) (from_brand to_brand : Nat) (amount : Int) :
    Option Err × Store :=
  if amount ≤ 0 then (some Err.InvalidAmount, s)
  else if from_brand = to_brand then (some Err.SameBrandExchange, s)
  else if (view_brand s from_brand).is_active = false ∨ (view_brand s to_brand).is_active = false then
    (some Err.InactiveBrand, s)
  else
    let from_balance := view_user_balance s user from_brand
    if from_balance < amount then (some Err.InsufficientBalance, s)
    else
      let s1 := setBalance s user from_brand (from_balance - amount)
      let to_balance := view_user_balance s1 user to_brand
      (none, setBalance s1 user to_brand (to_balance + amount))

/-- One contract invocation, for reasoning about operation sequences. -/
inductive Op where
  | register (name : String)
  | issue (user brand : Nat) (amount : Int)
  | exchange (user fromB toB : Nat) (amount : Int)

/-- Run a list of operations, requiring each to succeed; collect the ids
returned by the `register_brand` calls in call order.  `none` when any
operation fails. -/
def runOps (s : Store) : List Op → Option (List Nat × Store)
  | [] => some ([], s)
  | Op.register n :: rest =>
    let r := register_brand s n
    (runOps r.2 rest).map (fun p => (r.1 :: p.1, p.2))
  | Op.issue u b a :: rest =>
    match issue_tokens s u b a with
    | (none, s2) => runOps s2 rest
    | (some _, _) => none
  | Op.exchange u f t a :: rest =>
    match exchange_tokens s u f t a with
    | (none, s2) => runOps s2 rest
    | (some _, _) => none

/-- Amount credited to the `(u, b)` balance key by one operation: the
amount of an issue to `(u, b)`, or of an exchange whose destination is
`(u, b)`. -/
def opCredit (u b : Nat) : Op → Int
  | Op.issue u2 b2 a => if u2 = u ∧ b2 = b then a else 0
  | Op.exchange u2 _ t a => if u2 = u ∧ t = b then a else 0
  | Op.register _ => 0

/-- Amount debited from the `(u, b)` balance key by one operation: the
amount of an exchange whose source is `(u, b)`. -/
def opDebit (u b : Nat) : Op → Int
  | Op.exchange u2 f _ a => if u2 = u ∧ f = b then a else 0
  | _ => 0

/-- Amount credited to `(u, b)` by an `issue` operation only (the strict
reading of "issue amounts credited to it"). -/
def issueCredit (u b : Nat) : Op → Int
  | Op.issue u2 b2 a => if u2 = u ∧ b2 = b then a else 0
  | _ => 0

/-- Whether an operation writes the `(u, b)` balance key when it
succeeds: an issue to `(u, b)`, or an exchange with source or destination
brand `b` for user `u`. -/
def writesKey (u b : Nat) : Op → Bool
  | Op.issue u2 b2 _ => u2 == u && b2 == b
  | Op.exchange u2 f t _ => u2 == u && (f == b || t == b)
  | Op.register _ => false

/-- Register a list of brands in order, collecting the returned ids. -/
def registerAll (s : Store) : List String → List Nat × Store
  | [] => ([], s)
  | n :: rest =>
    let r := register_brand s n
    let r2 := registerAll r.2 rest
    (r.1 :: r2.1, r2.2)

/-! ### Concrete stores and runs used by the witnesses -/

/-- Two brands registered ("Amazon" gets id 1, "Apple" gets id 2). -/
def demoStore : Store :=
  (register_brand (register_brand emptyStore "Amazon").2 "Apple").2

/-- `demoStore` after issuing 1000 tokens of brand 1 to user 0. -/
def demoIssued : Store := (issue_tokens demoStore 0 1 1000).2

/-- `demoIssued` after exchanging 500 tokens from brand 1 to brand 2. -/
def demoExchanged : Store := (exchange_tokens demoIssued 0 1 2 500).2

/-- The spec's end-to-end scenario as an operation list: register two
brands, issue 1000 of brand 1 to user 0, exchange 500 from brand 1 to
brand 2. -/
def demoOps : List Op :=
  [Op.register "Amazon", Op.register "Apple", Op.issue 0 1 1000, Op.exchange 0 1 2 500]

/-- The result of running `demoOps` from the empty store. -/
def demoRun : List Nat × Store := (runOps emptyStore demoOps).getD ([], emptyStore)

/-! ### Basic lemmas about the store operations -/

theorem view_setBalance (s : Store) (u b u2 b2 : Nat) (v : Int) :
    view_user_balance (setBalance s u b v) u2 b2 =
      if u2 = u ∧ b2 = b then v else view_user_balance s u2 b2 := by
  simp only [view_user_balance, setBalance]
  split <;> rfl

theorem setBalance_brands (s : Store) (u b : Nat) (v : Int) :
    (setBalance s u b v).brands = s.brands := rfl

theorem setBalance_brandCount (s : Store) (u b : Nat) (v : Int) :
    (setBalance s u b v).brandCount = s.brandCount := rfl

/-- Inversion for a successful `issue_tokens`: the checks passed and the
result store is the input with the one balance bumped by `amount`. -/
theorem issue_ok_inv (s s' : Store) (u b : Nat) (a : Int)
    (h : issue_tokens s u b a = (none, s')) :
    (view_brand s b).is_active = true ∧ 0 < a ∧
      s' = setBalance s u b (view_user_balance s u b + a) := by
  by_cases h1 : (view_brand s b).is_active = false
  · simp [issue_tokens, h1] at h
  · by_cases h2 : a ≤ 0
    · simp [issue_tokens, h1, h2] at h
    · refine ⟨by simpa using h1, by omega, ?_⟩
      simp [issue_tokens, h1, h2] at h
      exact h.symm

/-- Inversion for a successful `exchange_tokens`: all checks passed and
the result writes `from - amount` then `to + amount`. -/
theorem exchange_ok_inv (s s' : Store) (u f t : Nat) (a : Int)
    (h : exchange_tokens s u f t a = (none, s')) :
    0 < a ∧ f ≠ t ∧
      (view_brand s f).is_active = true ∧ (view_brand s t).is_active = true ∧
      a ≤ view_user_balance s u f ∧
      s' = setBalance (setBalance s u f (view_user_balance s u f - a)) u t
            (view_user_balance (setBalance s u f (view_user_balance s u f - a)) u t + a) := by
  by_cases h1 : a ≤ 0
  · simp [exchange_tokens, h1] at h
  · by_cases h2 : f = t
    · simp [exchange_tokens, h1, h2] at h
    · by_cases h3 : (view_brand s f).is_active = false ∨ (view_brand s t).is_active = false
      · simp only [exchange_tokens, if_neg h1, if_neg h2, if_pos h3] at h
        simp at h
      · by_cases h4 : view_user_balance s u f < a
        · simp only [exchange_tokens, if_neg h1, if_neg h2, if_neg h3, if_pos h4] at h
          simp at h
        · simp only [exchange_tokens, if_neg h1, if_neg h2, if_neg h3, if_neg h4] at h
          simp at h
          push_neg at h3
          exact ⟨by omega, h2, by simpa using h3.1, by simpa using h3.2, by omega, h.symm⟩

theorem setBalance_balances (s : Store) (u2 b2 : Nat) (v : Int) (u b : Nat) :
    (setBalance s u2 b2 v).balances u b =
      if u = u2 ∧ b = b2 then some v else s.balances u b := rfl

/-- `issue_tokens` only ever writes a balance key: brand records and the
counter are untouched, on success and on failure alike. -/
theorem issue_tokens_frame (s : Store) (u b : Nat) (a : Int) :
    (issue_tokens s u b a).2.brands = s.brands ∧
    (issue_tokens s u b a).2.brandCount = s.brandCount := by
  by_cases h1 : (view_brand s b).is_active = false
  · simp [issue_tokens, h1]
  · by_cases h2 : a ≤ 0 <;>
      simp [issue_tokens, h1, h2, setBalance_brands, setBalance_brandCount]

/-- `exchange_tokens` only ever writes balance keys: brand records and
the counter are untouched, on success and on failure alike. -/
theorem exchange_tokens_frame (s : Store) (u f t : Nat) (a : Int) :
    (exchange_tokens s u f t a).2.brands = s.brands ∧
    (exchange_tokens s u f t a).2.brandCount = s.brandCount := by
  by_cases h1 : a ≤ 0
  · simp [exchange_tokens, h1]
  · by_cases h2 : f = t
    · simp [exchange_tokens, h1, h2]
    · by_cases h3 : (view_brand s f).is_active = false ∨ (view_brand s t).is_active = false
      · simp only [exchange_tokens, if_neg h1, if_neg h2, if_pos h3]
        simp
      · by_cases h4 : view_user_balance s u f < a <;>
          simp only [exchange_tokens, if_neg h1, if_neg h2, if_neg h3] <;>
          simp [h4, setBalance_brands, setBalance_brandCount]

theorem register_id_eq (s : Store) (n : String) :
    (register_brand s n).1 = get_brand_count s + 1 := rfl

theorem register_count_eq (s : Store) (n : String) :
    get_brand_count (register_brand s n).2 = get_brand_count s + 1 := rfl

theorem register_brands_eq (s : Store) (n : String) (k : Nat) :
    (register_brand s n).2.brands k =
      if k = get_brand_count s + 1 then
        some { brand_id := get_brand_count s + 1, brand_name := n, is_active := true }
      else s.brands k := rfl

theorem register_balances_eq (s : Store) (n : String) :
    (register_brand s n).2.balances = s.balances := rfl

/-- Registering a list of brands from any store returns the ids
`count+1, count+2, ...` in order and advances the counter by the number
of registrations. -/
theorem registerAll_ids (names : List String) : ∀ s : Store,
    (registerAll s names).1 = List.range' (get_brand_count s + 1) names.length ∧
    get_brand_count (registerAll s names).2 = get_brand_count s + names.length := by
  induction names with
  | nil => intro s; exact ⟨rfl, rfl⟩
  | cons n rest ih =>
    intro s
    obtain ⟨ih1, ih2⟩ := ih (register_brand s n).2
    constructor
    · show (register_brand s n).1 :: (registerAll (register_brand s n).2 rest).1 = _
      rw [ih1, register_id_eq, register_count_eq, List.length_cons, List.range'_succ]
    · show get_brand_count (registerAll (register_brand s n).2 rest).2 = _
      rw [ih2, register_count_eq, List.length_cons]
      omega

/-! ### Inversion of `runOps` on each operation -/

theorem runOps_nil_inv (s : Store) (ids : List Nat) (s' : Store)
    (h : runOps s [] = some (ids, s')) : ids = [] ∧ s' = s := by
  simp only [runOps, Option.some.injEq, Prod.mk.injEq] at h
  exact ⟨h.1.symm, h.2.symm⟩

theorem runOps_register_inv (s : Store) (n : String) (rest : List Op)
    (ids : List Nat) (s' : Store)
    (h : runOps s (Op.register n :: rest) = some (ids, s')) :
    ∃ p : List Nat × Store, runOps (register_brand s n).2 rest = some p ∧
      ids = (register_brand s n).1 :: p.1 ∧ s' = p.2 := by
  simp only [runOps, Option.map_eq_some'] at h
  obtain ⟨p, hp, hf⟩ := h
  obtain ⟨h1, h2⟩ := Prod.mk.injEq _ _ _ _ ▸ hf
  exact ⟨p, hp, h1.symm, h2.symm⟩

theorem runOps_issue_inv (s : Store) (u b : Nat) (a : Int) (rest : List Op)
    (ids : List Nat) (s' : Store)
    (h : runOps s (Op.issue u b a :: rest) = some (ids, s')) :
    ∃ s2, issue_tokens s u b a = (none, s2) ∧ runOps s2 rest = some (ids, s') := by
  rw [runOps] at h
  cases hi : issue_tokens s u b a with
  | mk e s2 =>
    rw [hi] at h
    cases e with
    | none => exact ⟨s2, rfl, h⟩
    | some err => simp at h

theorem runOps_exchange_inv (s : Store) (u f t : Nat) (a : Int) (rest : List Op)
    (ids : List Nat) (s' : Store)
    (h : runOps s (Op.exchange u f t a :: rest) = some (ids, s')) :
    ∃ s2, exchange_tokens s u f t a = (none, s2) ∧ runOps s2 rest = some (ids, s') := by
  rw [runOps] at h
  cases hi : exchange_tokens s u f t a with
  | mk e s2 =>
    rw [hi] at h
    cases e with
    | none => exact ⟨s2, rfl, h⟩
    | some err => simp at h

theorem view_register (s : Store) (n : String) (u b : Nat) :
    view_user_balance (register_brand s n).2 u b = view_user_balance s u b := rfl

/-- A successful issue changes the `(u, b)` balance by exactly the
operation's credit minus its debit. -/
theorem issue_ok_balance (s s2 : Store) (u2 b2 : Nat) (a : Int)
    (h : issue_tokens s u2 b2 a = (none, s2)) (u b : Nat) :
    view_user_balance s2 u b =
      view_user_balance s u b
        + opCredit u b (Op.issue u2 b2 a) - opDebit u b (Op.issue u2 b2 a) := by
  obtain ⟨_, _, hst⟩ := issue_ok_inv s s2 u2 b2 a h
  subst hst
  rw [view_setBalance]
  simp only [opCredit, opDebit]
  by_cases hc : u2 = u ∧ b2 = b
  · obtain ⟨h1, h2⟩ := hc
    subst h1; subst h2
    simp
  · rw [if_neg (fun hc2 => hc ⟨hc2.1.symm, hc2.2.symm⟩), if_neg hc]
    omega

/-- A successful exchange changes the `(u, b)` balance by exactly the
operation's credit minus its debit. -/
theorem exchange_ok_balance (s s2 : Store) (u2 f t : Nat) (a : Int)
    (h : exchange_tokens s u2 f t a = (none, s2)) (u b : Nat) :
    view_user_balance s2 u b =
      view_user_balance s u b
        + opCredit u b (Op.exchange u2 f t a) - opDebit u b (Op.exchange u2 f t a) := by
  obtain ⟨ha, hft, _, _, hbal, hst⟩ := exchange_ok_inv s s2 u2 f t a h
  subst hst
  simp only [opCredit, opDebit]
  by_cases hu : u = u2
  · subst hu
    by_cases hbt : b = t
    · subst hbt
      rw [view_setBalance, if_pos ⟨rfl, rfl⟩, view_setBalance,
        if_neg (show ¬(u = u ∧ b = f) from fun hc => hft hc.2.symm)]
      rw [if_neg (show ¬(u = u ∧ f = b) from fun hc => hft hc.2)]
      omega
    · by_cases hbf : b = f
      · subst hbf
        rw [view_setBalance,
          if_neg (show ¬(u = u ∧ b = t) from fun hc => hbt hc.2),
          view_setBalance, if_pos ⟨rfl, rfl⟩]
        rw [if_neg (show ¬(u = u ∧ t = b) from fun hc => hbt hc.2.symm),
          if_pos (show u = u ∧ b = b from ⟨rfl, rfl⟩)]
        omega
      · rw [view_setBalance,
          if_neg (show ¬(u = u ∧ b = t) from fun hc => hbt hc.2),
          view_setBalance,
          if_neg (show ¬(u = u ∧ b = f) from fun hc => hbf hc.2)]
        rw [if_neg (show ¬(u = u ∧ t = b) from fun hc => hbt hc.2.symm),
          if_neg (show ¬(u = u ∧ f = b) from fun hc => hbf hc.2.symm)]
        omega
  · rw [view_setBalance,
      if_neg (show ¬(u = u2 ∧ b = t) from fun hc => hu hc.1),
      view_setBalance,
      if_neg (show ¬(u = u2 ∧ b = f) from fun hc => hu hc.1)]
    rw [if_neg (show ¬(u2 = u ∧ t = b) from fun hc => hu hc.1.symm),
      if_neg (show ¬(u2 = u ∧ f = b) from fun hc => hu hc.1.symm)]
    omega

/-- Over any successful run, each balance moves by the total credits
minus the total debits of the run's operations. -/
theorem runOps_balance_sum (u b : Nat) (ops : List Op) : ∀ s ids s',
    runOps s ops = some (ids, s') →
    view_user_balance s' u b =
      view_user_balance s u b
        + ((ops.map (opCredit u b)).sum - (ops.map (opDebit u b)).sum) := by
  induction ops with
  | nil =>
    intro s ids s' h
    obtain ⟨_, hs2⟩ := runOps_nil_inv s ids s' h
    subst hs2
    simp
  | cons op rest ih =>
    intro s ids s' h
    cases op with
    | register n =>
      obtain ⟨p, hp, _, hseq⟩ := runOps_register_inv s n rest ids s' h
      subst hseq
      have h2 := ih _ _ _ hp
      rw [h2, view_register]
      simp only [List.map_cons, List.sum_cons, opCredit, opDebit]
      omega
    | issue u2 b2 a =>
      obtain ⟨s2, hi, hr⟩ := runOps_issue_inv s u2 b2 a rest ids s' h
      have h1 := issue_ok_balance s s2 u2 b2 a hi u b
      have h2 := ih _ _ _ hr
      rw [h2, h1]
      simp only [List.map_cons, List.sum_cons]
      omega
    | exchange u2 f t a =>
      obtain ⟨s2, he, hr⟩ := runOps_exchange_inv s u2 f t a rest ids s' h
      have h1 := exchange_ok_balance s s2 u2 f t a he u b
      have h2 := ih _ _ _ hr
      rw [h2, h1]
      simp only [List.map_cons, List.sum_cons]
      omega

/-- A successful issue keeps all balances nonnegative. -/
theorem issue_ok_nonneg (s s2 : Store) (u2 b2 : Nat) (a : Int)
    (h : issue_tokens s u2 b2 a = (none, s2))
    (hs : ∀ u b, 0 ≤ view_user_balance s u b) (u b : Nat) :
    0 ≤ view_user_balance s2 u b := by
  obtain ⟨_, hpos, hst⟩ := issue_ok_inv s s2 u2 b2 a h
  subst hst
  rw [view_setBalance]
  split
  · have := hs u2 b2
    omega
  · exact hs u b

/-- A successful exchange keeps all balances nonnegative. -/
theorem exchange_ok_nonneg (s s2 : Store) (u2 f t : Nat) (a : Int)
    (h : exchange_tokens s u2 f t a = (none, s2))
    (hs : ∀ u b, 0 ≤ view_user_balance s u b) (u b : Nat) :
    0 ≤ view_user_balance s2 u b := by
  obtain ⟨ha, hft, _, _, hbal, hst⟩ := exchange_ok_inv s s2 u2 f t a h
  subst hst
  rw [view_setBalance]
  split
  · rw [view_setBalance]
    split
    · rename_i hc1 hc2
      exact absurd hc2.2.symm hft
    · have := hs u2 t
      omega
  · rw [view_setBalance]
    split
    · omega
    · exact hs u b

/-- Nonnegativity of all balances is preserved by any successful run. -/
theorem runOps_nonneg (ops : List Op) : ∀ s ids s', runOps s ops = some (ids, s') →
    (∀ u b, 0 ≤ view_user_balance s u b) → ∀ u b, 0 ≤ view_user_balance s' u b := by
  induction ops with
  | nil =>
    intro s ids s' h hs
    obtain ⟨_, hs2⟩ := runOps_nil_inv s ids s' h
    subst hs2
    exact hs
  | cons op rest ih =>
    intro s ids s' h hs
    cases op with
    | register n =>
      obtain ⟨p, hp, _, hseq⟩ := runOps_register_inv s n rest ids s' h
      subst hseq
      exact ih _ _ _ hp (fun u b => by rw [view_register]; exact hs u b)
    | issue u2 b2 a =>
      obtain ⟨s2, hi, hr⟩ := runOps_issue_inv s u2 b2 a rest ids s' h
      exact ih _ _ _ hr (issue_ok_nonneg s s2 u2 b2 a hi hs)
    | exchange u2 f t a =>
      obtain ⟨s2, he, hr⟩ := runOps_exchange_inv s u2 f t a rest ids s' h
      exact ih _ _ _ hr (exchange_ok_nonneg s s2 u2 f t a he hs)

/-- Brand records are only written by `register_brand`, at the id it
returns: a run leaves every id not in the returned-id list untouched. -/
theorem runOps_brands_frame (ops : List Op) : ∀ s ids s', runOps s ops = some (ids, s') →
    ∀ k, k ∉ ids → s'.brands k = s.brands k := by
  induction ops with
  | nil =>
    intro s ids s' h k _
    obtain ⟨_, hs2⟩ := runOps_nil_inv s ids s' h
    subst hs2
    rfl
  | cons op rest ih =>
    intro s ids s' h k hk
    cases op with
    | register n =>
      obtain ⟨p, hp, hids, hseq⟩ := runOps_register_inv s n rest ids s' h
      subst hseq
      subst hids
      have hk1 : k ≠ (register_brand s n).1 :=
        fun he => hk (he ▸ List.mem_cons_self _ _)
      have hk2 : k ∉ p.1 := fun hm => hk (List.mem_cons_of_mem _ hm)
      rw [ih _ _ _ hp k hk2, register_brands_eq,
        if_neg (by rw [register_id_eq] at hk1; exact hk1)]
    | issue u2 b2 a =>
      obtain ⟨s2, hi, hr⟩ := runOps_issue_inv s u2 b2 a rest ids s' h
      have hb : s2.brands = s.brands := by
        have hfr := (issue_tokens_frame s u2 b2 a).1
        rw [hi] at hfr
        exact hfr
      rw [ih _ _ _ hr k hk, hb]
    | exchange u2 f t a =>
      obtain ⟨s2, he, hr⟩ := runOps_exchange_inv s u2 f t a rest ids s' h
      have hb : s2.brands = s.brands := by
        have hfr := (exchange_tokens_frame s u2 f t a).1
        rw [he] at hfr
        exact hfr
      rw [ih _ _ _ hr k hk, hb]

/-- A balance key no operation of a successful run writes is untouched
by the run. -/
theorem runOps_balances_frame (u b : Nat) (ops : List Op) : ∀ s ids s',
    runOps s ops = some (ids, s') → (∀ op ∈ ops, writesKey u b op = false) →
    s'.balances u b = s.balances u b := by
  induction ops with
  | nil =>
    intro s ids s' h _
    obtain ⟨_, hs2⟩ := runOps_nil_inv s ids s' h
    subst hs2
    rfl
  | cons op rest ih =>
    intro s ids s' h hw
    have hw0 := hw op (List.mem_cons_self _ _)
    have hwr : ∀ o ∈ rest, writesKey u b o = false :=
      fun o ho => hw o (List.mem_cons_of_mem _ ho)
    cases op with
    | register n =>
      obtain ⟨p, hp, _, hseq⟩ := runOps_register_inv s n rest ids s' h
      subst hseq
      rw [ih _ _ _ hp hwr]
      exact congrFun (congrFun (register_balances_eq s n) u) b
    | issue u2 b2 a =>
      obtain ⟨s2, hi, hr⟩ := runOps_issue_inv s u2 b2 a rest ids s' h
      rw [ih _ _ _ hr hwr]
      obtain ⟨_, _, hst⟩ := issue_ok_inv s s2 u2 b2 a hi
      subst hst
      simp only [writesKey, Bool.and_eq_false_imp, beq_iff_eq] at hw0
      rw [setBalance_balances, if_neg (fun hc => by simp [hc.1, hc.2] at hw0)]
    | exchange u2 f t a =>
      obtain ⟨s2, he, hr⟩ := runOps_exchange_inv s u2 f t a rest ids s' h
      rw [ih _ _ _ hr hwr]
      obtain ⟨_, hft, _, _, _, hst⟩ := exchange_ok_inv s s2 u2 f t a he
      subst hst
      simp only [writesKey, Bool.and_eq_false_imp, Bool.or_eq_false_iff, beq_iff_eq,
        beq_eq_false_iff_ne, ne_eq] at hw0
      rw [setBalance_balances, if_neg (fun hc => by
            have := hw0 hc.1.symm
            exact this.2 hc.2.symm),
        setBalance_balances, if_neg (fun hc => by
            have := hw0 hc.1.symm
            exact this.1 hc.2.symm)]

/-! ### Claim theorems -/

/-- C1: for a user and two distinct registered active brands `A`, `B`, a
successful `exchange_tokens` debits `amount` from the `A` balance,
credits `amount` to the `B` balance, and conserves the pair's sum. -/
theorem exchange_conservation (s s' : Store) (u A B : Nat) (a : Int)
    (hAB : A ≠ B)
    (hA : (view_brand s A).is_active = true) (hB : (view_brand s B).is_active = true)
    (h : exchange_tokens s u A B a = (none, s')) :
    view_user_balance s' u A = view_user_balance s u A - a ∧
    view_user_balance s' u B = view_user_balance s u B + a ∧
    view_user_balance s' u A + view_user_balance s' u B =
      view_user_balance s u A + view_user_balance s u B := by
  obtain ⟨ha, hft, hfa, hta, hbal, hs⟩ := exchange_ok_inv s s' u A B a h
  subst hs
  refine ⟨?_, ?_, ?_⟩ <;> simp [view_setBalance, hAB, Ne.symm hAB]

/-- C1 witness: exchanging 500 from brand 1 to brand 2 in the demo store. -/
theorem exchange_conservation_witness :
    view_user_balance demoExchanged 0 1 = view_user_balance demoIssued 0 1 - 500 ∧
    view_user_balance demoExchanged 0 2 = view_user_balance demoIssued 0 2 + 500 ∧
    view_user_balance demoExchanged 0 1 + view_user_balance demoExchanged 0 2 =
      view_user_balance demoIssued 0 1 + view_user_balance demoIssued 0 2 :=
  exchange_conservation demoIssued demoExchanged 0 1 2 500
    (by decide) (by decide) (by decide) rfl

/-- C4: a successful `issue_tokens` of `amount > 0` to an active brand
increases the `(user, brand_id)` balance by exactly `amount` and leaves
every other balance entry unchanged. -/
theorem issue_correct (s s' : Store) (u b : Nat) (a : Int)
    (hact : (view_brand s b).is_active = true) (hpos : 0 < a)
    (h : issue_tokens s u b a = (none, s')) :
    view_user_balance s' u b = view_user_balance s u b + a ∧
    ∀ u2 b2, ¬(u2 = u ∧ b2 = b) → view_user_balance s' u2 b2 = view_user_balance s u2 b2 := by
  obtain ⟨_, _, hs⟩ := issue_ok_inv s s' u b a h
  subst hs
  constructor
  · simp [view_setBalance]
  · intro u2 b2 hne
    rw [view_setBalance, if_neg hne]

/-- C4 witness: issuing 1000 of brand 1 to user 0 in the demo store. -/
theorem issue_correct_witness :
    view_user_balance demoIssued 0 1 = view_user_balance demoStore 0 1 + 1000 ∧
    view_user_balance demoIssued 0 2 = view_user_balance demoStore 0 2 :=
  ⟨(issue_correct demoStore demoIssued 0 1 1000 (by decide) (by decide) rfl).1,
   (issue_correct demoStore demoIssued 0 1 1000 (by decide) (by decide) rfl).2 0 2 (by decide)⟩

/-- C5: the rejection paths of `exchange_tokens`, in the order the source
checks them, each leaving the store exactly as it was before the call. -/
theorem exchange_rejection_paths (s : Store) (u f t : Nat) (a : Int) :
    (a ≤ 0 → exchange_tokens s u f t a = (some Err.InvalidAmount, s)) ∧
    (0 < a → f = t → exchange_tokens s u f t a = (some Err.SameBrandExchange, s)) ∧
    (0 < a → f ≠ t →
      ((view_brand s f).is_active = false ∨ (view_brand s t).is_active = false) →
      exchange_tokens s u f t a = (some Err.InactiveBrand, s)) ∧
    (0 < a → f ≠ t →
      (view_brand s f).is_active = true → (view_brand s t).is_active = true →
      view_user_balance s u f < a →
      exchange_tokens s u f t a = (some Err.InsufficientBalance, s)) ∧
    (∀ e, (exchange_tokens s u f t a).1 = some e → (exchange_tokens s u f t a).2 = s) := by
  refine ⟨?_, ?_, ?_, ?_, ?_⟩
  · intro h1
    simp [exchange_tokens, h1]
  · intro h1 h2
    simp [exchange_tokens, show ¬ a ≤ 0 by omega, h2]
  · intro h1 h2 h3
    simp only [exchange_tokens, if_neg (show ¬ a ≤ 0 by omega), if_neg h2, if_pos h3]
  · intro h1 h2 hf ht h5
    simp only [exchange_tokens, if_neg (show ¬ a ≤ 0 by omega), if_neg h2]
    rw [if_neg (by simp [hf, ht]), if_pos h5]
  · intro e he
    by_cases h1 : a ≤ 0
    · simp [exchange_tokens, h1]
    · by_cases h2 : f = t
      · simp [exchange_tokens, h1, h2]
      · by_cases h3 : (view_brand s f).is_active = false ∨ (view_brand s t).is_active = false
        · simp only [exchange_tokens, if_neg h1, if_neg h2, if_pos h3]
        · by_cases h4 : view_user_balance s u f < a
          · simp only [exchange_tokens, if_neg h1, if_neg h2, if_neg h3, if_pos h4]
          · exfalso
            simp only [exchange_tokens, if_neg h1, if_neg h2, if_neg h3, if_neg h4] at he
            simp at he

/-- C5 witness: with brands 1 and 2 registered and a zero balance,
exchanging 500 is rejected with `InsufficientBalance` and the store is
untouched. -/
theorem exchange_rejection_paths_witness :
    exchange_tokens demoStore 0 1 2 500 = (some Err.InsufficientBalance, demoStore) :=
  (exchange_rejection_paths demoStore 0 1 2 500).2.2.2.1
    (by decide) (by decide) (by decide) (by decide) (by decide)

/-- C3: `N` successful `register_brand` calls from the empty store return
the ids `1, 2, ..., N` in call order, and `get_brand_count` returns `N`
afterwards. -/
theorem register_ids_sequential (names : List String) :
    (registerAll emptyStore names).1 = List.range' 1 names.length ∧
    get_brand_count (registerAll emptyStore names).2 = names.length := by
  obtain ⟨h1, h2⟩ := registerAll_ids names emptyStore
  have h0 : get_brand_count emptyStore = 0 := rfl
  exact ⟨h1, by omega⟩

/-- C8: in `issue_tokens` the brand-activity check precedes the amount
check; with an inactive (or unregistered) brand and `amount ≤ 0` the
error is `InactiveBrand` and the store is returned unchanged. -/
theorem issue_inactive_precedence (s : Store) (u b : Nat) (a : Int)
    (hin : (view_brand s b).is_active = false) (ha : a ≤ 0) :
    issue_tokens s u b a = (some Err.InactiveBrand, s) := by
  simp [issue_tokens, hin]

/-- C8 witness: issuing amount 0 for the unregistered brand 1 from the
empty store. -/
theorem issue_inactive_precedence_witness :
    issue_tokens emptyStore 0 1 0 = (some Err.InactiveBrand, emptyStore) :=
  issue_inactive_precedence emptyStore 0 1 0 rfl (by decide)

/-- C9: frame separation. `issue_tokens` and `exchange_tokens` never
change a stored `Brand` record or the brand counter, whether they succeed
or fail; `register_brand` never changes a balance entry. -/
theorem frame_separation (s : Store) (u f t b : Nat) (a : Int) (n : String) :
    (∀ k, (issue_tokens s u b a).2.brands k = s.brands k) ∧
    (issue_tokens s u b a).2.brandCount = s.brandCount ∧
    (∀ k, (exchange_tokens s u f t a).2.brands k = s.brands k) ∧
    (exchange_tokens s u f t a).2.brandCount = s.brandCount ∧
    (∀ u2 b2, (register_brand s n).2.balances u2 b2 = s.balances u2 b2) := by
  obtain ⟨hi1, hi2⟩ := issue_tokens_frame s u b a
  obtain ⟨he1, he2⟩ := exchange_tokens_frame s u f t a
  exact ⟨fun k => congrFun hi1 k, hi2, fun k => congrFun he1 k, he2, fun _ _ => rfl⟩

/-- C10: every operation is a function of the store and its arguments:
equal pre-states and equal arguments give equal results and equal
post-states. -/
theorem operations_deterministic (s1 s2 : Store) (u f t b : Nat) (a : Int) (n : String)
    (h : s1 = s2) :
    register_brand s1 n = register_brand s2 n ∧
    issue_tokens s1 u b a = issue_tokens s2 u b a ∧
    exchange_tokens s1 u f t a = exchange_tokens s2 u f t a ∧
    view_user_balance s1 u b = view_user_balance s2 u b ∧
    view_brand s1 b = view_brand s2 b ∧
    get_brand_count s1 = get_brand_count s2 := by
  subst h
  exact ⟨rfl, rfl, rfl, rfl, rfl, rfl⟩

/-- C2 (amended): after any successful operation sequence from the empty
store, every balance equals the total credited to its key (by issues to
it and by exchanges into it) minus the total debited from it (by
exchanges out of it), and is never negative. -/
theorem balance_credit_debit_invariant (ops : List Op) (ids : List Nat) (s : Store)
    (h : runOps emptyStore ops = some (ids, s)) (u b : Nat) :
    view_user_balance s u b =
      (ops.map (opCredit u b)).sum - (ops.map (opDebit u b)).sum ∧
    0 ≤ view_user_balance s u b := by
  have h0 : view_user_balance emptyStore u b = 0 := rfl
  have h1 := runOps_balance_sum u b ops emptyStore ids s h
  rw [h0] at h1
  constructor
  · omega
  · exact runOps_nonneg ops emptyStore ids s h (fun _ _ => Int.le_refl 0) u b

/-- C2 witness: the invariant instantiated on the spec's end-to-end
scenario at key (user 0, brand 1). -/
theorem balance_credit_debit_invariant_witness :
    view_user_balance demoRun.2 0 1 =
      (demoOps.map (opCredit 0 1)).sum - (demoOps.map (opDebit 0 1)).sum ∧
    0 ≤ view_user_balance demoRun.2 0 1 :=
  balance_credit_debit_invariant demoOps demoRun.1 demoRun.2 rfl 0 1

/-- C2 counterexample for the claim as stated: in the spec's own
end-to-end scenario the destination balance (user 0, brand 2) is 500,
yet no issue ever credited that key and no exchange debited it, so
"issue credits minus exchange debits" is 0 there. -/
theorem balance_issue_only_cex :
    (runOps emptyStore demoOps).isSome = true ∧
    view_user_balance demoRun.2 0 2 = 500 ∧
    (demoOps.map (issueCredit 0 2)).sum - (demoOps.map (opDebit 0 2)).sum = 0 :=
  ⟨rfl, rfl, rfl⟩

/-- C6: after any successful run from the empty store, `view_brand` on an
id that no `register_brand` call of the run returned yields the sentinel
`Brand` (and in particular does not fail). -/
theorem view_brand_unassigned (ops : List Op) (ids : List Nat) (s : Store)
    (h : runOps emptyStore ops = some (ids, s)) (id : Nat) (hid : id ∉ ids) :
    view_brand s id =
      { brand_id := 0, brand_name := "Not_Found", is_active := false } := by
  have hb := runOps_brands_frame ops emptyStore ids s h id hid
  unfold view_brand
  rw [hb]
  rfl

/-- C6 witness: id 3 was never assigned in the demo run (its ids are
`[1, 2]`). -/
theorem view_brand_unassigned_witness :
    view_brand demoRun.2 3 =
      { brand_id := 0, brand_name := "Not_Found", is_active := false } :=
  view_brand_unassigned demoOps demoRun.1 demoRun.2 rfl 3 (by decide)

/-- C7: after any successful run from the empty store, a balance key no
operation of the run wrote reads as 0 (and the read does not fail). -/
theorem default_balance (ops : List Op) (ids : List Nat) (s : Store)
    (h : runOps emptyStore ops = some (ids, s)) (u b : Nat)
    (hw : ∀ op ∈ ops, writesKey u b op = false) :
    view_user_balance s u b = 0 := by
  have hb := runOps_balances_frame u b ops emptyStore ids s h hw
  unfold view_user_balance
  rw [hb]
  rfl

/-- C7 witness: user 7 never appears in the demo run, so their brand-1
balance reads 0. -/
theorem default_balance_witness :
    view_user_balance demoRun.2 7 1 = 0 :=
  default_balance demoOps demoRun.1 demoRun.2 rfl 7 1 (by decide)

/-- C10 witness: determinism instantiated at the demo store. -/
theorem operations_deterministic_witness :
    register_brand demoStore "Nike" = register_brand demoStore "Nike" ∧
    issue_tokens demoStore 0 1 5 = issue_tokens demoStore 0 1 5 ∧
    exchange_tokens demoStore 0 1 2 5 = exchange_tokens demoStore 0 1 2 5 ∧
    view_user_balance demoStore 0 1 = view_user_balance demoStore 0 1 ∧
    view_brand demoStore 1 = view_brand demoStore 1 ∧
    get_brand_count demoStore = get_brand_count demoStore :=
  operations_deterministic demoStore demoStore 0 1 2 1 5 "Nike" rfl

end Loyalty
